import Mathlib

/-!
# Verification of the sandboxed code execution engine (`run_python`)

A shallow embedding of `app/routes.py`'s `run_python` endpoint and its
inner `_truncate` codec.  JSON values are modelled by `JVal`, Python
strings by lists of Unicode code points (`List Nat`), Python floats by
rationals, and the behaviour of the `subprocess.run` call by an
`ExecOutcome` parameter.  The side effects relevant to the claims
(workspace acquisition/release, process creation) are recorded in an
event trace.
-/

set_option maxRecDepth 4000

/-- JSON values, as delivered by `request.get_json()`.  Numbers are
modelled as rationals (JSON integers and floats alike). -/
inductive JVal where
  | jnull : JVal
  | jbool : Bool → JVal
  | jnum : ℚ → JVal
  | jstr : String → JVal
  | jarr : List JVal → JVal
  | jobj : List (String × JVal) → JVal

/-- Python truthiness (`bool(v)`) of a JSON-derived value:
`None`, `False`, `0`, `""`, `[]`, `{}` are falsy. -/
def pyTruthy : JVal → Bool
  | JVal.jnull => false
  | JVal.jbool b => b
  | JVal.jnum q => decide (q ≠ 0)
  | JVal.jstr s => decide (s ≠ "")
  | JVal.jarr xs => !xs.isEmpty
  | JVal.jobj kvs => !kvs.isEmpty

/-- Rendering of a Python number (`str()` of an int or float); integral
rationals print without a fractional part, like Python ints. -/
def pyReprNum (q : ℚ) : String :=
  if q.den = 1 then toString q.num else toString q

mutual

/-- Python `repr()` of a JSON-derived value (used for elements nested
inside lists/dicts, where `str()` falls back to `repr()`). -/
def pyRepr : JVal → String
  | JVal.jnull => "None"
  | JVal.jbool true => "True"
  | JVal.jbool false => "False"
  | JVal.jnum q => pyReprNum q
  | JVal.jstr s =>
      String.singleton (Char.ofNat 39) ++ s ++ String.singleton (Char.ofNat 39)
  | JVal.jarr xs => "[" ++ pyReprList xs ++ "]"
  | JVal.jobj kvs => "\x7b" ++ pyReprObj kvs ++ "\x7d"

/-- Comma-separated `repr()`s of list elements. -/
def pyReprList : List JVal → String
  | [] => ""
  | [x] => pyRepr x
  | x :: y :: xs => pyRepr x ++ ", " ++ pyReprList (y :: xs)

/-- Comma-separated `repr()`s of dict entries. -/
def pyReprObj : List (String × JVal) → String
  | [] => ""
  | [(k, v)] => pyRepr (JVal.jstr k) ++ ": " ++ pyRepr v
  | (k, v) :: e :: kvs =>
      pyRepr (JVal.jstr k) ++ ": " ++ pyRepr v ++ ", " ++ pyReprObj (e :: kvs)

end

/-- Python `str()` of a JSON-derived value.  `str()` never raises on
these values, so the `except` branch guarding `[str(a) for a in args_raw]`
in the source is unreachable for JSON input. -/
def pyStr : JVal → String
  | JVal.jstr s => s
  | v => pyRepr v

/-- Digit-string value: `some n` when the (nonempty) character list is
all ASCII digits. -/
def digitsVal : List Char → Option ℕ
  | [] => none
  | [c] => if c.isDigit then some (c.toNat - 48) else none
  | c :: c' :: cs =>
      if c.isDigit then
        match digitsVal (c' :: cs) with
        | some n => some ((c.toNat - 48) * 10 ^ (c' :: cs).length + n)
        | none => none
      else none

/-- Python `str.strip()` with no argument: remove leading and trailing
whitespace (modelled with `Char.isWhitespace`). -/
def pyStrip (s : String) : String :=
  String.mk (((s.data.dropWhile Char.isWhitespace).reverse.dropWhile
    Char.isWhitespace).reverse)

/-- Python `float()` applied to a string, modelled for plain decimal
forms: optional sign, digits, optional fractional digits.  Exponents,
`inf`/`nan` and underscores are outside the model. -/
def pyFloatStr (s : String) : Option ℚ :=
  let cs := (pyStrip s).toList
  let signed : Bool × List Char :=
    match cs with
    | '-' :: rest => (true, rest)
    | '+' :: rest => (false, rest)
    | rest => (false, rest)
  let body := signed.2
  let mag : Option ℚ :=
    match body.span Char.isDigit with
    | (intPart, []) =>
        match digitsVal intPart with
        | some n => some (n : ℚ)
        | none => none
    | (intPart, '.' :: fracPart) =>
        if fracPart.all Char.isDigit ∧ (intPart ≠ [] ∨ fracPart ≠ []) then
          let ip : ℕ := (digitsVal intPart).getD 0
          let fp : ℕ := (digitsVal fracPart).getD 0
          some ((ip : ℚ) + (fp : ℚ) / (10 ^ fracPart.length : ℚ))
        else none
    | _ => none
  match mag with
  | some m => some (if signed.1 then -m else m)
  | none => none

/-- Python `int()` applied to a string: optional sign and digits only
(`int("5.5")` raises). -/
def pyIntStr (s : String) : Option ℤ :=
  let cs := (pyStrip s).toList
  let signed : Bool × List Char :=
    match cs with
    | '-' :: rest => (true, rest)
    | '+' :: rest => (false, rest)
    | rest => (false, rest)
  match digitsVal signed.2 with
  | some n => some (if signed.1 then -(n : ℤ) else (n : ℤ))
  | none => none

/-- Python `int()` truncates a real number toward zero. -/
def pyTrunc (q : ℚ) : ℤ :=
  Int.tdiv q.num (q.den : ℤ)

/-- Python `float(v)` on a JSON-derived value: numbers and bools
convert, `None`, lists and dicts raise `TypeError` (`none`). -/
def pyFloat : JVal → Option ℚ
  | JVal.jnum q => some q
  | JVal.jbool b => some (if b then 1 else 0)
  | JVal.jstr s => pyFloatStr s
  | _ => none

/-- Python `int(v)` on a JSON-derived value: ints identity, floats
truncate toward zero, bools convert, `None`, lists and dicts raise. -/
def pyInt : JVal → Option ℤ
  | JVal.jnum q => some (pyTrunc q)
  | JVal.jbool b => some (if b then 1 else 0)
  | JVal.jstr s => pyIntStr s
  | _ => none

/-! ## The output-bounding codec (`_truncate`)

Python strings are sequences of Unicode code points; we model them as
`List Nat`.  `s.encode("utf-8", errors="replace")` encodes each scalar
value in UTF-8 and replaces unencodable code points (lone surrogates)
with `?` (0x3F).  `bytes.decode("utf-8", errors="ignore")` decodes,
silently dropping bytes that do not form a valid sequence. -/

/-- A Python string: a list of Unicode code points. -/
abbrev Str := List Nat

/-- A Unicode scalar value: a code point that is not a surrogate. -/
def validScalar (c : Nat) : Prop :=
  c < 0x110000 ∧ ¬(0xD800 ≤ c ∧ c ≤ 0xDFFF)

instance (c : Nat) : Decidable (validScalar c) := by
  unfold validScalar
  infer_instance

/-- The UTF-8 encoding of a scalar value `c < 0x110000`. -/
def encodeChar (c : Nat) : List Nat :=
  if c < 0x80 then [c]
  else if c < 0x800 then [0xC0 + c / 0x40, 0x80 + c % 0x40]
  else if c < 0x10000 then
    [0xE0 + c / 0x1000, 0x80 + (c / 0x40) % 0x40, 0x80 + c % 0x40]
  else
    [0xF0 + c / 0x40000, 0x80 + (c / 0x1000) % 0x40,
     0x80 + (c / 0x40) % 0x40, 0x80 + c % 0x40]

/-- One code point under `encode("utf-8", errors="replace")`:
unencodable code points (surrogates, out-of-range) become `?`. -/
def pyEncodeChar (c : Nat) : List Nat :=
  if validScalar c then encodeChar c else [0x3F]

/-- Model of `s.encode("utf-8", errors="replace")`. -/
def pyEncode (s : Str) : List Nat :=
  (s.map pyEncodeChar).flatten

/-- The code point a code point decodes back to after the replace
encoding: unencodable ones come back as `?`. -/
def pyReplChar (c : Nat) : Nat :=
  if validScalar c then c else 0x3F

/-- UTF-8 continuation byte. -/
def isCont (b : Nat) : Bool :=
  decide (0x80 ≤ b ∧ b < 0xC0)

/-- Admissible first continuation byte after a 3-byte lead (excludes
overlong forms after 0xE0 and surrogates after 0xED). -/
def cont1ok3 (b b1 : Nat) : Bool :=
  if b = 0xE0 then decide (0xA0 ≤ b1 ∧ b1 < 0xC0)
  else if b = 0xED then decide (0x80 ≤ b1 ∧ b1 < 0xA0)
  else isCont b1

/-- Admissible first continuation byte after a 4-byte lead (excludes
overlong forms after 0xF0 and values above U+10FFFF after 0xF4). -/
def cont1ok4 (b b1 : Nat) : Bool :=
  if b = 0xF0 then decide (0x90 ≤ b1 ∧ b1 < 0xC0)
  else if b = 0xF4 then decide (0x80 ≤ b1 ∧ b1 < 0x90)
  else isCont b1

/-- One step of `bytes.decode("utf-8", errors="ignore")` at lead byte
`b` followed by `bs`: `none` when the input ends inside a valid-so-far
final sequence (the incomplete tail is dropped), `some (some c, rest)`
when a complete sequence decodes to `c`, and `some (none, rest)` when
`b` starts no valid sequence and is skipped. -/
def decStep (b : ℕ) (bs : List ℕ) : Option (Option ℕ × List ℕ) :=
  if b < 0x80 then some (some b, bs)
  else if b < 0xC2 then some (none, bs)
  else if b < 0xE0 then
    match bs with
    | [] => none
    | b1 :: r1 =>
      if isCont b1 then some (some ((b - 0xC0) * 0x40 + (b1 - 0x80)), r1)
      else some (none, b1 :: r1)
  else if b < 0xF0 then
    match bs with
    | [] => none
    | [b1] => if cont1ok3 b b1 then none else some (none, [b1])
    | b1 :: b2 :: r2 =>
      if cont1ok3 b b1 then
        if isCont b2 then
          some (some ((b - 0xE0) * 0x1000 + (b1 - 0x80) * 0x40 + (b2 - 0x80)), r2)
        else some (none, b2 :: r2)
      else some (none, b1 :: b2 :: r2)
  else if b < 0xF5 then
    match bs with
    | [] => none
    | [b1] => if cont1ok4 b b1 then none else some (none, [b1])
    | [b1, b2] =>
      if cont1ok4 b b1 then
        if isCont b2 then none else some (none, [b2])
      else some (none, [b1, b2])
    | b1 :: b2 :: b3 :: r3 =>
      if cont1ok4 b b1 then
        if isCont b2 then
          if isCont b3 then
            some (some ((b - 0xF0) * 0x40000 + (b1 - 0x80) * 0x1000
              + (b2 - 0x80) * 0x40 + (b3 - 0x80)), r3)
          else some (none, b3 :: r3)
        else some (none, b2 :: b3 :: r3)
      else some (none, b1 :: b2 :: b3 :: r3)
  else some (none, bs)

/-- A decoding step never lengthens the remaining input. -/
lemma decStep_rest_length (b : ℕ) (bs : List ℕ) (oc : Option ℕ) (rest : List ℕ)
    (h : decStep b bs = some (oc, rest)) : rest.length ≤ bs.length := by
  rcases bs with _ | ⟨b1, _ | ⟨b2, _ | ⟨b3, r⟩⟩⟩ <;>
    (simp only [decStep] at h
     split_ifs at h <;>
       (try simp at h) <;>
       (try obtain ⟨h1, h2⟩ := h) <;>
       (try subst h2) <;>
       simp <;> omega)

/-- Iterate `decStep`; the fuel bounds the number of steps and is
sufficient whenever it is at least the input length, since every step
consumes at least the lead byte. -/
def decodeIgnoreAux : ℕ → List ℕ → Str
  | _, [] => []
  | 0, _ :: _ => []
  | fuel + 1, b :: bs =>
    match decStep b bs with
    | none => []
    | some (some c, rest) => c :: decodeIgnoreAux fuel rest
    | some (none, rest) => decodeIgnoreAux fuel rest

/-- Model of `bytes.decode("utf-8", errors="ignore")`: decode, skipping bytes at
which no valid sequence starts and dropping an incomplete final
sequence. -/
def decodeIgnore (l : List ℕ) : Str :=
  decodeIgnoreAux l.length l

/-- Any sufficient fuel computes the same decoding. -/
lemma decodeIgnoreAux_fuel (fuel : ℕ) : ∀ (l : List ℕ), l.length ≤ fuel →
    decodeIgnoreAux fuel l = decodeIgnore l := by
  induction fuel using Nat.strong_induction_on with
  | _ fuel ih =>
    intro l h
    rcases l with _ | ⟨b, bs⟩
    · rcases fuel with _ | f <;> rfl
    · rcases fuel with _ | f
      · simp at h
      · simp only [List.length_cons] at h
        show decodeIgnoreAux (f + 1) (b :: bs) = decodeIgnoreAux (bs.length + 1) (b :: bs)
        simp only [decodeIgnoreAux]
        rcases hstep : decStep b bs with _ | ⟨oc, rest⟩
        · rfl
        · have hr := decStep_rest_length _ _ _ _ hstep
          have h1 : decodeIgnoreAux f rest = decodeIgnore rest :=
            ih f (by omega) rest (by omega)
          have h2 : decodeIgnoreAux bs.length rest = decodeIgnore rest :=
            ih bs.length (by omega) rest (by omega)
          rcases oc with _ | c
          · show decodeIgnoreAux f rest = decodeIgnoreAux bs.length rest
            rw [h1, h2]
          · show c :: decodeIgnoreAux f rest = c :: decodeIgnoreAux bs.length rest
            rw [h1, h2]

/-- The inner `_truncate(s)` closure of `run_python`, with the captured
`limit_bytes` made explicit: encode with `errors="replace"`; if within
the limit return the string unchanged, otherwise cut the byte string at
the limit and decode it back with `errors="ignore"`. -/
def _truncate (limit : ℤ) (s : Str) : Str × Bool :=
  let bs := pyEncode s
  if (bs.length : ℤ) ≤ limit then (s, false)
  else (decodeIgnore (bs.take limit.toNat), true)

/-! ## The request validator

`run_python` reads fields out of the request JSON object with
`data.get(...)` and validates them in source order: `code`, `args`,
`stdin`, `timeout_sec`, `limit_bytes`. -/

/-- The raw caller input: each field as `data.get` sees it (`none` when
the key is absent). -/
structure RawRequest where
  code : Option JVal
  args : Option JVal
  stdin : Option JVal
  timeout_sec : Option JVal
  limit_bytes : Option JVal

/-- Model of `data.get(k)`: it returns Python `None` both when the key is absent and
when it is present with JSON `null`. -/
def pyGet (v : Option JVal) : Option JVal :=
  match v with
  | some JVal.jnull => none
  | x => x

/-- The validation failures `run_python` can report, one per `jsonify`
error return in the validation section. -/
inductive VErr where
  | code_required
  | invalid_args
  | invalid_stdin
  | invalid_timeout
  | invalid_limit
  deriving DecidableEq

/-- The `(error, detail)` JSON body and HTTP status for each validation
failure, as produced by the corresponding `jsonify(...), 400` return. -/
def errBody : VErr → String × String × ℕ
  | VErr.code_required => ("code is required", "", 400)
  | VErr.invalid_args => ("invalid_args", "\x27args\x27 must be a list of strings", 400)
  | VErr.invalid_stdin => ("invalid_stdin", "\x27stdin\x27 must be a string", 400)
  | VErr.invalid_timeout => ("invalid_timeout", "\x27timeout_sec\x27 must be a number", 400)
  | VErr.invalid_limit => ("invalid_limit", "\x27limit_bytes\x27 must be an integer", 400)

/-- The two sequential range checks applied to the parsed timeout:
`if timeout_sec <= 0: timeout_sec = 1.0` then
`if timeout_sec > 15: timeout_sec = 15.0`. -/
def clampTimeout (t : ℚ) : ℚ :=
  let t1 := if t ≤ 0 then 1 else t
  if 15 < t1 then 15 else t1

/-- The two sequential range checks applied to the parsed output limit:
`if limit_bytes < 1024: limit_bytes = 1024` then
`if limit_bytes > 262144: limit_bytes = 262144`. -/
def clampLimit (z : ℤ) : ℤ :=
  let z1 := if z < 1024 then 1024 else z
  if 262144 < z1 then 262144 else z1

/-- Modelled from the spec for comparison only: the mathematical
`clamp(x, lo, hi)` that §3 and §8 of the design describe. -/
def specClamp (lo hi x : ℚ) : ℚ :=
  max lo (min hi x)

/-- Model of `args_raw = data.get("args") or []` followed by the list check and
`[str(a) for a in args_raw]`.  A falsy present value (`null`, `false`,
`0`, `""`, `[]`, `{}`) is replaced by `[]` by the `or`; `str` is total
on JSON values, so the `except` branch cannot fire. -/
def parseArgs (v : Option JVal) : Except VErr (List String) :=
  let args_raw : JVal :=
    match v with
    | none => JVal.jarr []
    | some j => if pyTruthy j then j else JVal.jarr []
  match args_raw with
  | JVal.jarr xs => Except.ok (xs.map pyStr)
  | _ => Except.error VErr.invalid_args

/-- Model of `float(data.get("timeout_sec", 5))` with its `except` guard,
followed by the range checks: absent defaults to `5`; a present value
that `float()` rejects (including `null`) is `invalid_timeout`. -/
def parseTimeout (v : Option JVal) : Except VErr ℚ :=
  match v with
  | none => Except.ok (clampTimeout 5)
  | some j =>
    match pyFloat j with
    | some q => Except.ok (clampTimeout q)
    | none => Except.error VErr.invalid_timeout

/-- Model of `int(data.get("limit_bytes", 32768))` with its `except` guard,
followed by the range checks. -/
def parseLimit (v : Option JVal) : Except VErr ℤ :=
  match v with
  | none => Except.ok (clampLimit 32768)
  | some j =>
    match pyInt j with
    | some z => Except.ok (clampLimit z)
    | none => Except.error VErr.invalid_limit

/-- A validated request: the state of the local variables after the
validation section of `run_python` succeeds. -/
structure ValidatedReq where
  code : String
  args_list : List String
  stdin_text : Option String
  timeout_sec : ℚ
  limit_bytes : ℤ
  deriving DecidableEq

/-- The validation section of `run_python`, in source order. -/
def validate (r : RawRequest) : Except VErr ValidatedReq := do
  let code ← match r.code with
    | some (JVal.jstr s) =>
        if pyStrip s = "" then Except.error VErr.code_required else Except.ok s
    | _ => Except.error VErr.code_required
  let args_list ← parseArgs r.args
  let stdin_text ← match pyGet r.stdin with
    | none => Except.ok none
    | some (JVal.jstr s) => Except.ok (some s)
    | some _ => Except.error VErr.invalid_stdin
  let t ← parseTimeout r.timeout_sec
  let lim ← parseLimit r.limit_bytes
  Except.ok ⟨code, args_list, stdin_text, t, lim⟩

/-! ## The execution phase

The behaviour of the `subprocess.run` call is a parameter
(`ExecOutcome`); the host interpreter path and the temporary directory
name are opaque strings.  Side effects are recorded as events. -/

/-- What the `subprocess.run` call did: terminated naturally with
captured output and a return code, raised `TimeoutExpired` carrying the
partial output (each stream possibly `None`), or raised some other
exception (e.g. a process-creation failure). -/
inductive ExecOutcome where
  | completed : Str → Str → ℤ → ExecOutcome
  | timedOut : Option Str → Option Str → ExecOutcome
  | raised : String → ExecOutcome

/-- The host interpreter path `sys.executable`: an opaque host
constant. -/
def sysExecutable : String := "sys.executable"

/-- Model of `os.path.join(tmpdir, "main.py")`. -/
def srcPath (tmpdir : String) : String := tmpdir ++ "/main.py"

/-- How the child process is started: argument vector, working
directory, and which standard streams are pipes. -/
structure ProcSpec where
  cmd : List String
  cwd : String
  stdin_piped : Bool
  stdout_piped : Bool
  stderr_piped : Bool
  deriving DecidableEq

/-- The `subprocess.run` invocation built by `run_python`:
`cmd = [sys.executable, "-I", "-S", "-B", src_path]`, extended with
`args_list` when nonempty; `cwd=tmpdir`; `capture_output=True` pipes
stdout and stderr; `input=stdin_text if isinstance(stdin_text, str)
else None` pipes stdin exactly when `input` is not `None`. -/
def mkProcSpec (tmpdir : String) (v : ValidatedReq) : ProcSpec :=
  let base := [sysExecutable, "-I", "-S", "-B", srcPath tmpdir]
  { cmd := if v.args_list.isEmpty then base else base ++ v.args_list
    cwd := tmpdir
    stdin_piped := v.stdin_text.isSome
    stdout_piped := true
    stderr_piped := true }

/-- Observable side effects of one `run_python` invocation. -/
inductive Event where
  | acquireWorkspace
  | writeSource
  | spawn : ProcSpec → Event
  | releaseWorkspace
  deriving DecidableEq

/-- Model of `int((_time.time() - start) * 1000)`: elapsed seconds between two
clock readings, in milliseconds, truncated toward zero. -/
def durationMs (ts te : ℚ) : ℤ :=
  pyTrunc ((te - ts) * 1000)

/-- The success JSON body. -/
structure SuccessBody where
  stdout : Str
  stderr : Str
  exit_code : ℤ
  truncated_stdout : Bool
  truncated_stderr : Bool
  duration_ms : ℤ
  deriving DecidableEq

/-- The timeout JSON body: `error="timeout"` with a detail message and
the bounded partial output.  It has no `exit_code` field. -/
structure TimeoutBody where
  detail : String
  stdout : Str
  stderr : Str
  truncated_stdout : Bool
  truncated_stderr : Bool
  duration_ms : ℤ
  deriving DecidableEq

/-- The four response shapes `run_python` can return. -/
inductive RunResult where
  | ok : SuccessBody → RunResult
  | invalid : VErr → RunResult
  | timeout : TimeoutBody → RunResult
  | execFailed : String → RunResult
  deriving DecidableEq

/-- The HTTP status attached to each response shape. -/
def httpStatus : RunResult → ℕ
  | RunResult.ok _ => 200
  | RunResult.invalid _ => 400
  | RunResult.timeout _ => 408
  | RunResult.execFailed _ => 500

/-- The detail message of the timeout body,
`f"Execution exceeded {timeout_sec} seconds"` (the exact float
rendering is abstracted by the rational's rendering). -/
def timeoutDetail (t : ℚ) : String :=
  "Execution exceeded " ++ toString t ++ " seconds"

/-- The body of the `with tempfile.TemporaryDirectory()` block after
the source file is written: invoke the child and assemble a response,
or propagate an exception (`Except.error`). -/
def runBody (tmpdir : String) (v : ValidatedReq) (oc : ExecOutcome) (ts te : ℚ) :
    Except String RunResult × List Event :=
  let events := [Event.writeSource, Event.spawn (mkProcSpec tmpdir v)]
  match oc with
  | ExecOutcome.completed out err rc =>
      let o := _truncate v.limit_bytes out
      let e := _truncate v.limit_bytes err
      (Except.ok (RunResult.ok
        { stdout := o.1, stderr := e.1, exit_code := rc
          truncated_stdout := o.2, truncated_stderr := e.2
          duration_ms := durationMs ts te }), events)
  | ExecOutcome.timedOut pout perr =>
      let o := _truncate v.limit_bytes (pout.getD [])
      let e := _truncate v.limit_bytes (perr.getD [])
      (Except.ok (RunResult.timeout
        { detail := timeoutDetail v.timeout_sec
          stdout := o.1, stderr := e.1
          truncated_stdout := o.2, truncated_stderr := e.2
          duration_ms := durationMs ts te }), events)
  | ExecOutcome.raised m => (Except.error m, events)

/-- The `with tempfile.TemporaryDirectory()` statement: the directory
is acquired before the body and released when the body finishes,
whether it returned a value or raised (`__exit__` runs on both paths). -/
def withTempDir (body : Except String RunResult × List Event) :
    Except String RunResult × List Event :=
  (body.1, Event.acquireWorkspace :: body.2 ++ [Event.releaseWorkspace])

/-- The whole endpoint: validation, then the workspace-scoped execution
with the outer `try/except` turning an escaped exception into the
`execution_failed` response. -/
def run_python (tmpdir : String) (r : RawRequest) (oc : ExecOutcome) (ts te : ℚ) :
    RunResult × List Event :=
  match validate r with
  | Except.error e => (RunResult.invalid e, [])
  | Except.ok v =>
      let traced := withTempDir (runBody tmpdir v oc ts te)
      (match traced.1 with
       | Except.ok res => res
       | Except.error m => RunResult.execFailed m,
       traced.2)

/-! ## Codec lemmas -/
/-! ## Codec lemmas -/

/-- The replace-encoding of any code point is nonempty. -/
lemma pyEncodeChar_length_pos (c : ℕ) : 0 < (pyEncodeChar c).length := by
  unfold pyEncodeChar encodeChar
  split_ifs <;> simp

/-- What a code point decodes back to is a scalar value. -/
lemma validScalar_pyReplChar (c : ℕ) : validScalar (pyReplChar c) := by
  unfold pyReplChar
  split_ifs with h
  · exact h
  · unfold validScalar
    omega

/-- Re-encoding the decoded code point yields the same bytes. -/
lemma pyEncodeChar_pyReplChar (c : ℕ) : pyEncodeChar (pyReplChar c) = pyEncodeChar c := by
  by_cases h : validScalar c
  · rw [pyReplChar, if_pos h]
  · simp only [pyReplChar, pyEncodeChar, h, if_false]
    decide

/-- A decoding step at an ASCII byte emits it. -/
lemma decStep_ascii (b : ℕ) (h : b < 0x80) (bs : List ℕ) :
    decStep b bs = some (some b, bs) := by
  unfold decStep
  rw [if_pos h]

/-- A decoding step at a complete 2-byte sequence emits its scalar. -/
lemma decStep_enc2 (c : ℕ) (h1 : 0x80 ≤ c) (h2 : c < 0x800) (bs : List ℕ) :
    decStep (0xC0 + c / 0x40) ((0x80 + c % 0x40) :: bs) = some (some c, bs) := by
  unfold decStep
  rw [if_neg (by omega), if_neg (by omega), if_pos (by omega)]
  simp only [isCont, decide_eq_true_eq]
  rw [if_pos (by omega)]
  have hc : (0xC0 + c / 0x40 - 0xC0) * 0x40 + (0x80 + c % 0x40 - 0x80) = c := by omega
  rw [hc]

/-- A decoding step at a complete 3-byte sequence emits its scalar. -/
lemma decStep_enc3 (c : ℕ) (h1 : 0x800 ≤ c) (h2 : c < 0x10000)
    (hs : ¬(0xD800 ≤ c ∧ c ≤ 0xDFFF)) (bs : List ℕ) :
    decStep (0xE0 + c / 0x1000)
      ((0x80 + c / 0x40 % 0x40) :: (0x80 + c % 0x40) :: bs) = some (some c, bs) := by
  have hok : cont1ok3 (0xE0 + c / 0x1000) (0x80 + c / 0x40 % 0x40) = true := by
    simp only [cont1ok3, isCont]
    split_ifs with he0 hed <;> simp only [decide_eq_true_eq] <;> omega
  have hc2 : isCont (0x80 + c % 0x40) = true := by
    simp only [isCont, decide_eq_true_eq]
    omega
  unfold decStep
  rw [if_neg (by omega), if_neg (by omega), if_neg (by omega), if_pos (by omega)]
  simp only [hok, hc2, if_true, Option.some.injEq, Prod.mk.injEq, and_true]
  omega

/-- A decoding step at a complete 4-byte sequence emits its scalar. -/
lemma decStep_enc4 (c : ℕ) (h1 : 0x10000 ≤ c) (h2 : c < 0x110000) (bs : List ℕ) :
    decStep (0xF0 + c / 0x40000)
      ((0x80 + c / 0x1000 % 0x40) :: (0x80 + c / 0x40 % 0x40) :: (0x80 + c % 0x40) :: bs)
      = some (some c, bs) := by
  have hok : cont1ok4 (0xF0 + c / 0x40000) (0x80 + c / 0x1000 % 0x40) = true := by
    simp only [cont1ok4, isCont]
    split_ifs with hf0 hf4 <;> simp only [decide_eq_true_eq] <;> omega
  have hc2 : isCont (0x80 + c / 0x40 % 0x40) = true := by
    simp only [isCont, decide_eq_true_eq]
    omega
  have hc3 : isCont (0x80 + c % 0x40) = true := by
    simp only [isCont, decide_eq_true_eq]
    omega
  unfold decStep
  rw [if_neg (by omega), if_neg (by omega), if_neg (by omega), if_neg (by omega),
    if_pos (by omega)]
  simp only [hok, hc2, hc3, if_true, Option.some.injEq, Prod.mk.injEq, and_true]
  omega

/-- Unfolding: a step that emits a code point. -/
lemma decodeIgnore_emit (b : ℕ) (bs : List ℕ) (c : ℕ) (rest : List ℕ)
    (h : decStep b bs = some (some c, rest)) :
    decodeIgnore (b :: bs) = c :: decodeIgnore rest := by
  have hr := decStep_rest_length _ _ _ _ h
  show decodeIgnoreAux (bs.length + 1) (b :: bs) = c :: decodeIgnore rest
  simp only [decodeIgnoreAux, h]
  exact congrArg (c :: ·) (decodeIgnoreAux_fuel bs.length rest hr)

/-- Unfolding: a step that skips an invalid byte. -/
lemma decodeIgnore_skip (b : ℕ) (bs : List ℕ) (rest : List ℕ)
    (h : decStep b bs = some (none, rest)) :
    decodeIgnore (b :: bs) = decodeIgnore rest := by
  have hr := decStep_rest_length _ _ _ _ h
  show decodeIgnoreAux (bs.length + 1) (b :: bs) = decodeIgnore rest
  simp only [decodeIgnoreAux, h]
  exact decodeIgnoreAux_fuel bs.length rest hr

/-- Unfolding: a step that hits the end of the input mid-sequence. -/
lemma decodeIgnore_stop (b : ℕ) (bs : List ℕ)
    (h : decStep b bs = none) :
    decodeIgnore (b :: bs) = [] := by
  show decodeIgnoreAux (bs.length + 1) (b :: bs) = []
  simp only [decodeIgnoreAux, h]

/-- Decoding a complete encoded code point consumes exactly its bytes,
producing the (possibly replaced) code point, whatever bytes follow. -/
lemma decodeIgnore_pyEncodeChar (c : ℕ) (bs : List ℕ) :
    decodeIgnore (pyEncodeChar c ++ bs) = pyReplChar c :: decodeIgnore bs := by
  by_cases hv : validScalar c
  · rw [pyReplChar, if_pos hv, pyEncodeChar, if_pos hv]
    obtain ⟨hlt, hsur⟩ := hv
    unfold encodeChar
    by_cases h1 : c < 0x80
    · rw [if_pos h1]
      rw [List.cons_append, List.nil_append]
      exact decodeIgnore_emit _ _ _ _ (decStep_ascii c h1 bs)
    · rw [if_neg h1]
      by_cases h2 : c < 0x800
      · rw [if_pos h2]
        rw [List.cons_append, List.cons_append, List.nil_append]
        exact decodeIgnore_emit _ _ _ _ (decStep_enc2 c (by omega) h2 bs)
      · rw [if_neg h2]
        by_cases h3 : c < 0x10000
        · rw [if_pos h3]
          rw [List.cons_append, List.cons_append, List.cons_append, List.nil_append]
          exact decodeIgnore_emit _ _ _ _ (decStep_enc3 c (by omega) h3 hsur bs)
        · rw [if_neg h3]
          rw [List.cons_append, List.cons_append, List.cons_append, List.cons_append,
            List.nil_append]
          exact decodeIgnore_emit _ _ _ _ (decStep_enc4 c (by omega) hlt bs)
  · rw [pyReplChar, if_neg hv, pyEncodeChar, if_neg hv]
    rw [List.cons_append, List.nil_append]
    exact decodeIgnore_emit _ _ _ _ (decStep_ascii 0x3F (by omega) bs)

/-- A multi-byte lead with no following bytes is an incomplete final
sequence. -/
lemma decStep_lead_nil (b : ℕ) (h1 : 0xC2 ≤ b) (h2 : b < 0xF5) :
    decStep b [] = none := by
  unfold decStep
  rw [if_neg (by omega), if_neg (by omega)]
  split_ifs <;> first | rfl | omega

/-- A 3-byte lead followed by only its first (admissible) continuation
byte is an incomplete final sequence. -/
lemma decStep_enc3_take2 (c : ℕ) (h1 : 0x800 ≤ c) (h2 : c < 0x10000)
    (hs : ¬(0xD800 ≤ c ∧ c ≤ 0xDFFF)) :
    decStep (0xE0 + c / 0x1000) [0x80 + c / 0x40 % 0x40] = none := by
  have hok : cont1ok3 (0xE0 + c / 0x1000) (0x80 + c / 0x40 % 0x40) = true := by
    simp only [cont1ok3, isCont]
    split_ifs with he0 hed <;> simp only [decide_eq_true_eq] <;> omega
  unfold decStep
  rw [if_neg (by omega), if_neg (by omega), if_neg (by omega), if_pos (by omega)]
  simp only [hok, if_true]

/-- A 4-byte lead followed by only its first (admissible) continuation
byte is an incomplete final sequence. -/
lemma decStep_enc4_take2 (c : ℕ) (h1 : 0x10000 ≤ c) (h2 : c < 0x110000) :
    decStep (0xF0 + c / 0x40000) [0x80 + c / 0x1000 % 0x40] = none := by
  have hok : cont1ok4 (0xF0 + c / 0x40000) (0x80 + c / 0x1000 % 0x40) = true := by
    simp only [cont1ok4, isCont]
    split_ifs with hf0 hf4 <;> simp only [decide_eq_true_eq] <;> omega
  unfold decStep
  rw [if_neg (by omega), if_neg (by omega), if_neg (by omega), if_neg (by omega),
    if_pos (by omega)]
  simp only [hok, if_true]

/-- A 4-byte lead followed by its first two continuation bytes only is
an incomplete final sequence. -/
lemma decStep_enc4_take3 (c : ℕ) (h1 : 0x10000 ≤ c) (h2 : c < 0x110000) :
    decStep (0xF0 + c / 0x40000) [0x80 + c / 0x1000 % 0x40, 0x80 + c / 0x40 % 0x40]
      = none := by
  have hok : cont1ok4 (0xF0 + c / 0x40000) (0x80 + c / 0x1000 % 0x40) = true := by
    simp only [cont1ok4, isCont]
    split_ifs with hf0 hf4 <;> simp only [decide_eq_true_eq] <;> omega
  have hc2 : isCont (0x80 + c / 0x40 % 0x40) = true := by
    simp only [isCont, decide_eq_true_eq]
    omega
  unfold decStep
  rw [if_neg (by omega), if_neg (by omega), if_neg (by omega), if_neg (by omega),
    if_pos (by omega)]
  simp only [hok, hc2, if_true]

/-- Decoding a strict byte-level prefix of one encoded code point
yields nothing: the incomplete sequence is dropped. -/
lemma decodeIgnore_take_pyEncodeChar (c : ℕ) (n : ℕ)
    (h : n < (pyEncodeChar c).length) :
    decodeIgnore ((pyEncodeChar c).take n) = [] := by
  by_cases hv : validScalar c
  · rw [pyEncodeChar, if_pos hv] at h ⊢
    obtain ⟨hlt, hsur⟩ := hv
    unfold encodeChar at h ⊢
    by_cases h1 : c < 0x80
    · rw [if_pos h1] at h ⊢
      simp only [List.length_cons, List.length_nil] at h
      interval_cases n
      · rfl
    · rw [if_neg h1] at h ⊢
      by_cases h2 : c < 0x800
      · rw [if_pos h2] at h ⊢
        simp only [List.length_cons, List.length_nil] at h
        interval_cases n
        · rfl
        · show decodeIgnore [0xC0 + c / 0x40] = []
          exact decodeIgnore_stop _ _ (decStep_lead_nil _ (by omega) (by omega))
      · rw [if_neg h2] at h ⊢
        by_cases h3 : c < 0x10000
        · rw [if_pos h3] at h ⊢
          simp only [List.length_cons, List.length_nil] at h
          interval_cases n
          · rfl
          · show decodeIgnore [0xE0 + c / 0x1000] = []
            exact decodeIgnore_stop _ _ (decStep_lead_nil _ (by omega) (by omega))
          · show decodeIgnore [0xE0 + c / 0x1000, 0x80 + c / 0x40 % 0x40] = []
            exact decodeIgnore_stop _ _ (decStep_enc3_take2 c (by omega) h3 hsur)
        · rw [if_neg h3] at h ⊢
          simp only [List.length_cons, List.length_nil] at h
          interval_cases n
          · rfl
          · show decodeIgnore [0xF0 + c / 0x40000] = []
            exact decodeIgnore_stop _ _ (decStep_lead_nil _ (by omega) (by omega))
          · show decodeIgnore [0xF0 + c / 0x40000, 0x80 + c / 0x1000 % 0x40] = []
            exact decodeIgnore_stop _ _ (decStep_enc4_take2 c (by omega) hlt)
          · show decodeIgnore
              [0xF0 + c / 0x40000, 0x80 + c / 0x1000 % 0x40, 0x80 + c / 0x40 % 0x40] = []
            exact decodeIgnore_stop _ _ (decStep_enc4_take3 c (by omega) hlt)
  · rw [pyEncodeChar, if_neg hv] at h ⊢
    simp only [List.length_cons, List.length_nil] at h
    interval_cases n
    · rfl

/-- Encoding distributes over cons. -/
lemma pyEncode_cons (c : ℕ) (cs : Str) :
    pyEncode (c :: cs) = pyEncodeChar c ++ pyEncode cs := by
  simp [pyEncode]

/-- Decoding an arbitrary byte-level cut of an encoded string yields a
(replaced) character-level prefix of it, whose re-encoding fits in the
cut. -/
lemma decodeIgnore_take_pyEncode (s : Str) : ∀ n : ℕ,
    ∃ k, decodeIgnore ((pyEncode s).take n) = (s.take k).map pyReplChar ∧
      (pyEncode (decodeIgnore ((pyEncode s).take n))).length ≤ n := by
  induction s with
  | nil =>
    intro n
    refine ⟨0, ?_, ?_⟩ <;> simp [pyEncode, decodeIgnore, decodeIgnoreAux]
  | cons c cs ih =>
    intro n
    by_cases h : (pyEncodeChar c).length ≤ n
    · obtain ⟨k, hk, hlen⟩ := ih (n - (pyEncodeChar c).length)
      have htake : (pyEncode (c :: cs)).take n
          = pyEncodeChar c ++ (pyEncode cs).take (n - (pyEncodeChar c).length) := by
        rw [pyEncode_cons, List.take_append_eq_append_take, List.take_of_length_le h]
      have hdec : decodeIgnore ((pyEncode (c :: cs)).take n)
          = pyReplChar c :: decodeIgnore ((pyEncode cs).take (n - (pyEncodeChar c).length)) := by
        rw [htake, decodeIgnore_pyEncodeChar]
      refine ⟨k + 1, ?_, ?_⟩
      · rw [hdec, hk, List.take_succ_cons, List.map_cons]
      · rw [hdec, pyEncode_cons, List.length_append, pyEncodeChar_pyReplChar]
        omega
    · have htake : (pyEncode (c :: cs)).take n = (pyEncodeChar c).take n := by
        rw [pyEncode_cons, List.take_append_eq_append_take]
        have h0 : n - (pyEncodeChar c).length = 0 := by omega
        rw [h0, List.take_zero, List.append_nil]
      have hdec : decodeIgnore ((pyEncode (c :: cs)).take n) = [] := by
        rw [htake]
        exact decodeIgnore_take_pyEncodeChar c n (by omega)
      refine ⟨0, ?_, ?_⟩
      · rw [hdec, List.take_zero, List.map_nil]
      · rw [hdec]
        simp [pyEncode]

/-- The text returned by the codec always re-encodes to at most the
(non-negative) ceiling. -/
lemma _truncate_length (limit : ℤ) (s : Str) (h0 : 0 ≤ limit) :
    ((pyEncode (_truncate limit s).1).length : ℤ) ≤ limit := by
  simp only [_truncate]
  split_ifs with h
  · exact h
  · show ((pyEncode (decodeIgnore ((pyEncode s).take limit.toNat))).length : ℤ) ≤ limit
    obtain ⟨k, hk, hlen⟩ := decodeIgnore_take_pyEncode s limit.toNat
    omega

/-- When the encoded input fits in the ceiling, the codec is the
identity with a `false` flag. -/
lemma _truncate_of_le (limit : ℤ) (s : Str)
    (h : ((pyEncode s).length : ℤ) ≤ limit) :
    _truncate limit s = (s, false) := by
  simp only [_truncate]
  rw [if_pos h]

/-- When the encoded input exceeds the ceiling, the codec reports
truncation. -/
lemma _truncate_flag_of_gt (limit : ℤ) (s : Str)
    (h : limit < ((pyEncode s).length : ℤ)) :
    (_truncate limit s).2 = true := by
  simp only [_truncate]
  rw [if_neg (by omega)]

/-- A truncated result consists only of scalar values (well-formed
text). -/
lemma _truncate_valid_of_gt (limit : ℤ) (s : Str)
    (h : limit < ((pyEncode s).length : ℤ)) :
    ∀ x ∈ (_truncate limit s).1, validScalar x := by
  simp only [_truncate]
  rw [if_neg (by omega)]
  obtain ⟨k, hk, hlen⟩ := decodeIgnore_take_pyEncode s limit.toNat
  rw [hk]
  intro x hx
  simp only [List.mem_map] at hx
  obtain ⟨y, hy, rfl⟩ := hx
  exact validScalar_pyReplChar y

/-- The codec is idempotent: re-truncating its output returns it
unchanged with a `false` flag. -/
lemma _truncate_idem (limit : ℤ) (s : Str) (h0 : 0 ≤ limit) :
    _truncate limit (_truncate limit s).1 = ((_truncate limit s).1, false) :=
  _truncate_of_le limit _ (_truncate_length limit s h0)

/-- Decidable equality of `Except` results, for evaluating the model on
concrete requests. -/
instance exceptDecEq {ε α : Type} [DecidableEq ε] [DecidableEq α] :
    DecidableEq (Except ε α) := fun a b =>
  match a, b with
  | Except.error e, Except.error f =>
      if h : e = f then isTrue (h ▸ rfl) else isFalse (fun hh => h (Except.error.inj hh))
  | Except.ok x, Except.ok y =>
      if h : x = y then isTrue (h ▸ rfl) else isFalse (fun hh => h (Except.ok.inj hh))
  | Except.error _, Except.ok _ => isFalse (fun hh => Except.noConfusion hh)
  | Except.ok _, Except.error _ => isFalse (fun hh => Except.noConfusion hh)

/-! ## Facts about the validator and the execution pipeline -/

/-- The parsed output limit always lands in `[1024, 262144]`. -/
lemma clampLimit_bounds (z : ℤ) : 1024 ≤ clampLimit z ∧ clampLimit z ≤ 262144 := by
  simp only [clampLimit]
  split_ifs <;> omega

/-- The range checks keep the timeout in `(0, 15]`. -/
lemma clampTimeout_bounds (t : ℚ) : 0 < clampTimeout t ∧ clampTimeout t ≤ 15 := by
  simp only [clampTimeout]
  split_ifs <;> constructor <;> linarith

/-- Elapsed milliseconds are non-negative when the later clock reading
is not before the earlier one. -/
lemma durationMs_nonneg (ts te : ℚ) (h : ts ≤ te) : 0 ≤ durationMs ts te := by
  unfold durationMs pyTrunc
  have hq : (0 : ℚ) ≤ (te - ts) * 1000 := by nlinarith
  exact Int.tdiv_nonneg (Rat.num_nonneg.mpr hq) (by positivity)

/-- On a validated request the endpoint's event trace is: acquire the
workspace, write the source file, invoke the child, release the
workspace — for every outcome of the child. -/
lemma validate_ok_trace (tmpdir : String) (r : RawRequest) (v : ValidatedReq)
    (oc : ExecOutcome) (ts te : ℚ) (h : validate r = Except.ok v) :
    (run_python tmpdir r oc ts te).2
      = [Event.acquireWorkspace, Event.writeSource, Event.spawn (mkProcSpec tmpdir v),
         Event.releaseWorkspace] := by
  unfold run_python
  rw [h]
  cases oc <;> rfl

/-- A validation failure short-circuits: the error response is returned
and no side effect happens. -/
lemma validate_err_run (tmpdir : String) (r : RawRequest) (e : VErr)
    (oc : ExecOutcome) (ts te : ℚ) (h : validate r = Except.error e) :
    run_python tmpdir r oc ts te = (RunResult.invalid e, []) := by
  unfold run_python
  rw [h]

/-- The response body on a validated request, for each child outcome. -/
lemma run_python_ok_result (tmpdir : String) (r : RawRequest) (v : ValidatedReq)
    (out err : Str) (rc : ℤ) (ts te : ℚ) (h : validate r = Except.ok v) :
    (run_python tmpdir r (ExecOutcome.completed out err rc) ts te).1 =
      RunResult.ok
        { stdout := (_truncate v.limit_bytes out).1
          stderr := (_truncate v.limit_bytes err).1
          exit_code := rc
          truncated_stdout := (_truncate v.limit_bytes out).2
          truncated_stderr := (_truncate v.limit_bytes err).2
          duration_ms := durationMs ts te } := by
  unfold run_python
  rw [h]
  rfl

/-- The response body on a timeout, for a validated request. -/
lemma run_python_timeout_result (tmpdir : String) (r : RawRequest) (v : ValidatedReq)
    (po pe : Option Str) (ts te : ℚ) (h : validate r = Except.ok v) :
    (run_python tmpdir r (ExecOutcome.timedOut po pe) ts te).1 =
      RunResult.timeout
        { detail := timeoutDetail v.timeout_sec
          stdout := (_truncate v.limit_bytes (po.getD [])).1
          stderr := (_truncate v.limit_bytes (pe.getD [])).1
          truncated_stdout := (_truncate v.limit_bytes (po.getD [])).2
          truncated_stderr := (_truncate v.limit_bytes (pe.getD [])).2
          duration_ms := durationMs ts te } := by
  unfold run_python
  rw [h]
  rfl

/-- An internal exception becomes the `execution_failed` response, for
a validated request. -/
lemma run_python_raised_result (tmpdir : String) (r : RawRequest) (v : ValidatedReq)
    (m : String) (ts te : ℚ) (h : validate r = Except.ok v) :
    (run_python tmpdir r (ExecOutcome.raised m) ts te).1 = RunResult.execFailed m := by
  unfold run_python
  rw [h]
  rfl

/-! ## Concrete inputs used by witnesses and counterexamples -/

/-- One half, as a raw rational (kernel-computable form). -/
def halfQ : ℚ := ⟨1, 2, by omega, Nat.coprime_one_left 2⟩

/-- One quarter, as a raw rational. -/
def quarterQ : ℚ := ⟨1, 4, by omega, Nat.coprime_one_left 4⟩

/-- A minimal valid request: code only. -/
def reqSimple : RawRequest := ⟨some (JVal.jstr "print(1)"), none, none, none, none⟩

/-- The validated form of `reqSimple` (defaults applied). -/
def vSimple : ValidatedReq := ⟨"print(1)", [], none, 5, 32768⟩

/-- A valid request that also supplies stdin text. -/
def reqStdin : RawRequest :=
  ⟨some (JVal.jstr "print(input())"), none, some (JVal.jstr "hi"), none, none⟩

/-- The validated form of `reqStdin`. -/
def vStdin : ValidatedReq := ⟨"print(input())", [], some "hi", 5, 32768⟩

/-- A request whose `args` field is present but is the number `0` — a
falsy non-sequence. -/
def reqFalsyArgs : RawRequest :=
  ⟨some (JVal.jstr "print(1)"), some (JVal.jnum 0), none, none, none⟩

/-- A request whose `timeout_sec` field is JSON `null`. -/
def reqBadTimeout : RawRequest :=
  ⟨some (JVal.jstr "print(1)"), none, none, some JVal.jnull, none⟩

/-! ## The claims -/

/-- Claim C1, counterexample: At `timeout_sec = 1/2` the effective timeout
`run_python` uses is `1/2` itself, while `clamp(1/2, 1, 15) = 1`: the
claim "the effective timeout equals `clamp(timeout_sec, 1, 15)`" fails. -/
theorem C1_counterexample :
    parseTimeout (some (JVal.jnum halfQ)) = Except.ok halfQ ∧
    specClamp 1 15 halfQ ≠ halfQ := by
  constructor
  · decide
  · unfold specClamp
    rw [min_eq_right (by decide), max_eq_left (by decide)]
    decide

/-- Claim C1, amended: The effective timeout agrees with
`clamp(timeout_sec, 1, 15)` for `timeout_sec ≤ 0` and for
`timeout_sec ≥ 1`, but a caller value strictly between `0` and `1` is
used as-is (it is not raised to the lower bound `1`). -/
theorem C1_amended (t : ℚ) :
    parseTimeout (some (JVal.jnum t)) = Except.ok (clampTimeout t) ∧
    ((t ≤ 0 ∨ 1 ≤ t) → clampTimeout t = specClamp 1 15 t) ∧
    (0 < t → t < 1 → clampTimeout t = t) := by
  refine ⟨rfl, ?_, ?_⟩
  · intro h
    simp only [clampTimeout, specClamp]
    rcases h with h | h
    · rw [if_pos h, if_neg (by norm_num), min_eq_right (by linarith),
        max_eq_left (by linarith)]
    · rw [if_neg (show ¬t ≤ 0 by linarith)]
      by_cases h15 : 15 < t
      · rw [if_pos h15, min_eq_left (by linarith), max_eq_right (by norm_num)]
      · rw [if_neg h15, min_eq_right (by linarith), max_eq_right (by linarith)]
  · intro h0 h1
    simp only [clampTimeout]
    rw [if_neg (show ¬t ≤ 0 by linarith), if_neg (show ¬(15 : ℚ) < t by linarith)]

/-- Witness for C1's amended statement at `t = 20` and `t = 1/2`. -/
theorem C1_witness :
    clampTimeout 20 = specClamp 1 15 20 ∧ clampTimeout halfQ = halfQ :=
  ⟨(C1_amended 20).2.1 (Or.inr (by norm_num)),
   (C1_amended halfQ).2.2 (by decide) (by decide)⟩

/-- Claim C2: For every input string and non-negative byte ceiling, the
output-bounding codec returns text whose UTF-8 re-encoding has byte
length at most the ceiling; an input already within the ceiling comes
back unchanged with `truncated = false`; an over-limit input comes back
with `truncated = true` and consists only of Unicode scalar values (the
byte cut never produces a decoding error or malformed text). -/
theorem C2_truncate_bounded (s : Str) (limit : ℤ) (h0 : 0 ≤ limit) :
    ((pyEncode (_truncate limit s).1).length : ℤ) ≤ limit ∧
    (((pyEncode s).length : ℤ) ≤ limit → _truncate limit s = (s, false)) ∧
    (limit < ((pyEncode s).length : ℤ) →
      (_truncate limit s).2 = true ∧ ∀ x ∈ (_truncate limit s).1, validScalar x) :=
  ⟨_truncate_length limit s h0,
   fun h => _truncate_of_le limit s h,
   fun h => ⟨_truncate_flag_of_gt limit s h, _truncate_valid_of_gt limit s h⟩⟩

/-- Witness for C2 at two euro signs (6 bytes) under ceiling 4. -/
theorem C2_witness :
    (0 : ℤ) ≤ 4 ∧
    ((pyEncode (_truncate 4 ([0x20AC, 0x20AC] : Str)).1).length : ℤ) ≤ 4 :=
  ⟨by decide, (C2_truncate_bounded [0x20AC, 0x20AC] 4 (by decide)).1⟩

/-- Claim C6, counterexample: `timeout_sec = 1/4` parses as a number and
is accepted, yet the resulting effective timeout is `1/4`, which is not
within the bounds `[1, 15]` — the out-of-range value is not clamped to
the bounds. -/
theorem C6_counterexample :
    parseTimeout (some (JVal.jnum quarterQ)) = Except.ok quarterQ ∧
    ¬(1 ≤ quarterQ) := ⟨by decide, by decide⟩

/-- Claim C6, amended: Validation of the numeric fields is asymmetric: a
present value that fails to parse is rejected (`invalid_timeout` /
`invalid_limit`), and a value that parses is never rejected but passed
through the range checks; `limit_bytes` is clamped into
`[1024, 262144]`, while `timeout_sec` is capped above at `15`, replaced
by `1` when non-positive, and kept as-is in `(0, 1)`; on any validation
error the request produces no side effect (no child process). -/
theorem C6_amended :
    (∀ j, pyFloat j = none → parseTimeout (some j) = Except.error VErr.invalid_timeout) ∧
    (∀ j, pyInt j = none → parseLimit (some j) = Except.error VErr.invalid_limit) ∧
    (∀ j q, pyFloat j = some q → parseTimeout (some j) = Except.ok (clampTimeout q)) ∧
    (∀ j z, pyInt j = some z → parseLimit (some j) = Except.ok (clampLimit z)) ∧
    (∀ z, 1024 ≤ clampLimit z ∧ clampLimit z ≤ 262144) ∧
    (∀ t, 0 < clampTimeout t ∧ clampTimeout t ≤ 15) ∧
    (∀ tmpdir r oc ts te e, validate r = Except.error e →
      run_python tmpdir r oc ts te = (RunResult.invalid e, [])) := by
  refine ⟨?_, ?_, ?_, ?_, clampLimit_bounds, clampTimeout_bounds, ?_⟩
  · intro j h
    simp only [parseTimeout, h]
  · intro j h
    simp only [parseLimit, h]
  · intro j q h
    simp only [parseTimeout, h]
  · intro j z h
    simp only [parseLimit, h]
  · exact fun tmpdir r oc ts te e h => validate_err_run tmpdir r e oc ts te h

/-- Witness for C6 at concrete parse failures, a clamped parse success,
and a rejected request. -/
theorem C6_witness :
    parseTimeout (some JVal.jnull) = Except.error VErr.invalid_timeout ∧
    parseLimit (some (JVal.jstr "5.5")) = Except.error VErr.invalid_limit ∧
    parseLimit (some (JVal.jnum 500)) = Except.ok (clampLimit 500) ∧
    run_python "/ws" reqBadTimeout (ExecOutcome.completed [] [] 0) 0 0
      = (RunResult.invalid VErr.invalid_timeout, []) :=
  ⟨C6_amended.1 JVal.jnull (by decide),
   C6_amended.2.1 (JVal.jstr "5.5") (by decide),
   C6_amended.2.2.2.1 (JVal.jnum 500) 500 (by decide),
   C6_amended.2.2.2.2.2.2 "/ws" reqBadTimeout (ExecOutcome.completed [] [] 0) 0 0
     VErr.invalid_timeout (by decide)⟩

/-- Claim C10: The codec is idempotent at every reachable ceiling: if
`_truncate` returns text `t`, then `_truncate` applied to `t` returns
`t` unchanged with `truncated = false`. -/
theorem C10_truncate_idempotent (z : ℤ) (s : Str) :
    _truncate (clampLimit z) (_truncate (clampLimit z) s).1
      = ((_truncate (clampLimit z) s).1, false) :=
  _truncate_idem (clampLimit z) s (by have := clampLimit_bounds z; omega)

/-- Claim C3: When the child exceeds the timeout, `run_python` returns
the distinct timeout outcome (HTTP 408): error `"timeout"` with a
detail message, the codec-bounded partial stdout and stderr captured
before termination, both truncation flags, and `duration_ms`.  The
`TimeoutBody` shape has no `exit_code` field at all. -/
theorem C3_timeout_outcome (tmpdir : String) (r : RawRequest) (v : ValidatedReq)
    (po pe : Option Str) (ts te : ℚ) (h : validate r = Except.ok v) :
    (run_python tmpdir r (ExecOutcome.timedOut po pe) ts te).1 =
      RunResult.timeout
        { detail := timeoutDetail v.timeout_sec
          stdout := (_truncate v.limit_bytes (po.getD [])).1
          stderr := (_truncate v.limit_bytes (pe.getD [])).1
          truncated_stdout := (_truncate v.limit_bytes (po.getD [])).2
          truncated_stderr := (_truncate v.limit_bytes (pe.getD [])).2
          duration_ms := durationMs ts te } ∧
    httpStatus (run_python tmpdir r (ExecOutcome.timedOut po pe) ts te).1 = 408 := by
  have h1 := run_python_timeout_result tmpdir r v po pe ts te h
  refine ⟨h1, ?_⟩
  rw [h1]
  rfl

/-- Witness for C3 on a timed-out run with partial stdout. -/
theorem C3_witness :
    validate reqSimple = Except.ok vSimple ∧
    httpStatus (run_python "/ws" reqSimple (ExecOutcome.timedOut (some [65]) none) 0 1).1
      = 408 :=
  ⟨by decide,
   (C3_timeout_outcome "/ws" reqSimple vSimple (some [65]) none 0 1 (by decide)).2⟩

/-- Claim C4: On every exit path of a validated request — natural child
completion, timeout, and internal error — the workspace is released,
and the release is the last side effect of the request. -/
theorem C4_workspace_released (tmpdir : String) (r : RawRequest) (v : ValidatedReq)
    (oc : ExecOutcome) (ts te : ℚ) (h : validate r = Except.ok v) :
    Event.releaseWorkspace ∈ (run_python tmpdir r oc ts te).2 ∧
    (run_python tmpdir r oc ts te).2.getLast? = some Event.releaseWorkspace := by
  rw [validate_ok_trace tmpdir r v oc ts te h]
  exact ⟨by simp, rfl⟩

/-- Witness for C4 on the internal-error path. -/
theorem C4_witness :
    validate reqSimple = Except.ok vSimple ∧
    Event.releaseWorkspace ∈
      (run_python "/ws" reqSimple (ExecOutcome.raised "boom") 0 1).2 :=
  ⟨by decide,
   (C4_workspace_released "/ws" reqSimple vSimple (ExecOutcome.raised "boom") 0 1
     (by decide)).1⟩

/-- Claim C5, counterexample: For a validated request without stdin text
the child is started with `input=None`, so its standard input is
inherited from the parent rather than piped: `stdin_piped = false`,
refuting "standard input, output, and error all piped" for every
validated request. -/
theorem C5_counterexample :
    validate reqSimple = Except.ok vSimple ∧
    (run_python "/ws" reqSimple (ExecOutcome.completed [] [] 0) 0 0).2
      = [Event.acquireWorkspace, Event.writeSource, Event.spawn (mkProcSpec "/ws" vSimple),
         Event.releaseWorkspace] ∧
    (mkProcSpec "/ws" vSimple).stdin_piped = false :=
  ⟨by decide, by decide, by decide⟩

/-- Claim C5, amended: For every validated request the child is started
with working directory the workspace, argument vector
`[sys.executable, "-I", "-S", "-B", source-path, ...args]`, stdout and
stderr piped; stdin is piped exactly when stdin text was supplied, and
inherited otherwise. -/
theorem C5_amended (tmpdir : String) (r : RawRequest) (v : ValidatedReq)
    (oc : ExecOutcome) (ts te : ℚ) (h : validate r = Except.ok v) :
    (run_python tmpdir r oc ts te).2
      = [Event.acquireWorkspace, Event.writeSource, Event.spawn (mkProcSpec tmpdir v),
         Event.releaseWorkspace] ∧
    (mkProcSpec tmpdir v).cmd
      = sysExecutable :: "-I" :: "-S" :: "-B" :: srcPath tmpdir :: v.args_list ∧
    (mkProcSpec tmpdir v).cwd = tmpdir ∧
    (mkProcSpec tmpdir v).stdout_piped = true ∧
    (mkProcSpec tmpdir v).stderr_piped = true ∧
    ((mkProcSpec tmpdir v).stdin_piped = true ↔ v.stdin_text ≠ none) := by
  refine ⟨validate_ok_trace tmpdir r v oc ts te h, ?_, rfl, rfl, rfl, ?_⟩
  · simp only [mkProcSpec]
    by_cases hl : v.args_list.isEmpty
    · rw [if_pos hl]
      have he : v.args_list = [] := List.isEmpty_iff.mp hl
      rw [he]
    · rw [if_neg hl]
      rfl
  · simp only [mkProcSpec]
    exact Option.isSome_iff_ne_none

/-- Witness for C5's amended statement on a request with stdin text. -/
theorem C5_witness :
    validate reqStdin = Except.ok vStdin ∧
    ((mkProcSpec "/ws" vStdin).stdin_piped = true ↔ vStdin.stdin_text ≠ none) :=
  ⟨by decide,
   (C5_amended "/ws" reqStdin vStdin (ExecOutcome.completed [] [] 0) 0 0
     (by decide)).2.2.2.2.2⟩

/-- Claim C7: A non-zero exit code is not an error: whenever the child
terminates naturally, `run_python` returns the success-shaped result
(HTTP 200) with `exit_code` equal to the child's return code, for zero
and non-zero return codes alike. -/
theorem C7_nonzero_exit_ok (tmpdir : String) (r : RawRequest) (v : ValidatedReq)
    (out err : Str) (rc : ℤ) (ts te : ℚ) (h : validate r = Except.ok v) :
    (run_python tmpdir r (ExecOutcome.completed out err rc) ts te).1 =
      RunResult.ok
        { stdout := (_truncate v.limit_bytes out).1
          stderr := (_truncate v.limit_bytes err).1
          exit_code := rc
          truncated_stdout := (_truncate v.limit_bytes out).2
          truncated_stderr := (_truncate v.limit_bytes err).2
          duration_ms := durationMs ts te } ∧
    httpStatus (run_python tmpdir r (ExecOutcome.completed out err rc) ts te).1 = 200 := by
  have h1 := run_python_ok_result tmpdir r v out err rc ts te h
  refine ⟨h1, ?_⟩
  rw [h1]
  rfl

/-- Witness for C7 at the non-zero return code 7. -/
theorem C7_witness :
    validate reqSimple = Except.ok vSimple ∧
    httpStatus (run_python "/ws" reqSimple (ExecOutcome.completed [] [] 7) 0 1).1 = 200 :=
  ⟨by decide,
   (C7_nonzero_exit_ok "/ws" reqSimple vSimple [] [] 7 0 1 (by decide)).2⟩

/-- Claim C8, counterexample: A request whose `args` is present but is
the number `0` (not a sequence) is not rejected: `data.get("args") or
[]` replaces the falsy value with `[]`, validation succeeds, and a
child process is created — refuting "fails with an invalid-args
validation error before any process is created". -/
theorem C8_counterexample :
    validate reqFalsyArgs = Except.ok vSimple ∧
    (run_python "/ws" reqFalsyArgs (ExecOutcome.completed [] [] 0) 0 0).2
      = [Event.acquireWorkspace, Event.writeSource, Event.spawn (mkProcSpec "/ws" vSimple),
         Event.releaseWorkspace] :=
  ⟨by decide, by decide⟩

/-- Claim C8, amended: A present *truthy* non-sequence `args` is
rejected with `invalid_args` and produces no side effect; a present
falsy `args` (`null`, `false`, `0`, `""`, `[]`, `{}`) is silently
treated as the empty list; a sequence is accepted with each element
coerced by `str()`, which succeeds on every JSON value, so
element-coercion failure cannot occur. -/
theorem C8_amended :
    (∀ j, pyTruthy j = true → (∀ xs, j ≠ JVal.jarr xs) →
      parseArgs (some j) = Except.error VErr.invalid_args) ∧
    (∀ j, pyTruthy j = false → parseArgs (some j) = Except.ok []) ∧
    (∀ xs, parseArgs (some (JVal.jarr xs)) = Except.ok (xs.map pyStr)) ∧
    (∀ tmpdir r oc ts te, validate r = Except.error VErr.invalid_args →
      run_python tmpdir r oc ts te = (RunResult.invalid VErr.invalid_args, [])) := by
  refine ⟨?_, ?_, ?_, ?_⟩
  · intro j ht hne
    cases j with
    | jarr xs => exact absurd rfl (hne xs)
    | jnull => simp [pyTruthy] at ht
    | jbool b => simp [parseArgs, ht]
    | jnum q => simp [parseArgs, ht]
    | jstr s => simp [parseArgs, ht]
    | jobj kvs => simp [parseArgs, ht]
  · intro j ht
    simp [parseArgs, ht]
  · intro xs
    simp only [parseArgs]
    by_cases ht : pyTruthy (JVal.jarr xs)
    · rw [if_pos ht]
    · rw [if_neg ht]
      have he : xs = [] := by
        simp only [pyTruthy, Bool.not_eq_true] at ht
        simpa using ht
      rw [he]
  · exact fun tmpdir r oc ts te h => validate_err_run tmpdir r VErr.invalid_args oc ts te h

/-- Witness for C8: a truthy non-list is rejected, a falsy value is
emptied, a list of strings is accepted element-wise. -/
theorem C8_witness :
    parseArgs (some (JVal.jstr "zz")) = Except.error VErr.invalid_args ∧
    parseArgs (some (JVal.jbool false)) = Except.ok [] ∧
    parseArgs (some (JVal.jarr [JVal.jstr "a"])) = Except.ok ["a"] :=
  ⟨C8_amended.1 (JVal.jstr "zz") (by decide) (fun xs => by simp),
   C8_amended.2.1 (JVal.jbool false) (by decide),
   C8_amended.2.2.1 [JVal.jstr "a"]⟩

/-- Claim C9: Whenever the later clock reading is not before the earlier
one, the `duration_ms` field of every result `run_python` returns —
success and timeout alike — is a non-negative integer. -/
theorem C9_duration_nonneg (tmpdir : String) (r : RawRequest) (oc : ExecOutcome)
    (ts te : ℚ) (hts : ts ≤ te) :
    (∀ b, (run_python tmpdir r oc ts te).1 = RunResult.ok b → 0 ≤ b.duration_ms) ∧
    (∀ b, (run_python tmpdir r oc ts te).1 = RunResult.timeout b → 0 ≤ b.duration_ms) := by
  have hd := durationMs_nonneg ts te hts
  cases hv : validate r with
  | error e =>
    have he := validate_err_run tmpdir r e oc ts te hv
    rw [he]
    constructor <;> intro b hb <;> simp at hb
  | ok v =>
    cases oc with
    | completed out err rc =>
      have h1 := run_python_ok_result tmpdir r v out err rc ts te hv
      constructor
      · intro b hb
        rw [h1] at hb
        injection hb with hb'
        rw [← hb']
        exact hd
      · intro b hb
        rw [h1] at hb
        simp at hb
    | timedOut po pe =>
      have h1 := run_python_timeout_result tmpdir r v po pe ts te hv
      constructor
      · intro b hb
        rw [h1] at hb
        simp at hb
      · intro b hb
        rw [h1] at hb
        injection hb with hb'
        rw [← hb']
        exact hd
    | raised m =>
      have h1 := run_python_raised_result tmpdir r v m ts te hv
      constructor <;> intro b hb <;> rw [h1] at hb <;> simp at hb

/-- Witness for C9 on a completed run with clock readings 0 and 1. -/
theorem C9_witness :
    (0 : ℚ) ≤ 1 ∧
    (∀ b, (run_python "/ws" reqSimple (ExecOutcome.completed [] [] 0) 0 1).1
        = RunResult.ok b → 0 ≤ b.duration_ms) :=
  ⟨by decide,
   (C9_duration_nonneg "/ws" reqSimple (ExecOutcome.completed [] [] 0) 0 1 (by decide)).1⟩
